import Mathlib

/-!
Verification of the arcade-review server in `src/server.js`.

The three database tables (users, arcades, comments) are modelled as lists
of rows; each Express route handler is embedded as a pure function from its
request data and the current database state to a handler result and the
successor database state (each handler issues at most one SQL statement, so
this is exact).  External collaborators are treated as parameters: bcrypt
hashing and comparison are function arguments, and the jwt library together
with the auth middleware (not part of the server source) are modelled from
the spec where noted.  SERIAL primary keys are modelled as strictly
increasing fresh identifiers.
-/

namespace ArcadeServer

/-- A row of the `users` table. -/
structure User where
  id : Nat
  username : String
  email : String
  password : String
deriving Repr, DecidableEq

/-- A row of the `arcades` table. -/
structure Arcade where
  id : Nat
  name : String
  address : String
  days_open : String
  hours_of_operation : String
  serves_alcohol : Bool
deriving Repr, DecidableEq

/-- A row of the `comments` table.  The `comment` and `rating` columns are
nullable: the comment-update route can write NULL into either one. -/
structure Comment where
  id : Nat
  user_id : Nat
  arcade_id : Nat
  comment : Option String
  rating : Option ℚ
  created_at : Nat
deriving Repr, DecidableEq

/-- The whole database state. -/
structure DB where
  users : List User
  arcades : List Arcade
  comments : List Comment
deriving Repr, DecidableEq

/-- JavaScript truthiness of a string-valued request-body field:
`undefined` (the field is absent) and the empty string are falsy. -/
def truthyStr : Option String → Bool
  | none => false
  | some s => s ≠ ""

/-- JavaScript truthiness of a numeric request-body field:
`undefined` (the field is absent) and `0` are falsy. -/
def truthyNum : Option ℚ → Bool
  | none => false
  | some q => q ≠ 0

/-- A fresh SERIAL primary key: one more than the largest id in use
(at least 1), so it differs from every existing id. -/
def nextId (ids : List Nat) : Nat :=
  ids.foldr (fun i m => max (i + 1) m) 1

theorem lt_nextId {ids : List Nat} {i : Nat} (h : i ∈ ids) : i < nextId ids := by
  induction ids with
  | nil => cases h
  | cons x xs ih =>
      rcases List.mem_cons.mp h with h1 | h2
      · subst h1
        exact lt_of_lt_of_le (Nat.lt_succ_self i) (le_max_left _ _)
      · exact lt_of_lt_of_le (ih h2) (le_max_right _ _)

/-- Modelled from the spec: the jwt library and the auth middleware are not
under `src/`.  `jwt.sign(\x7b userId \x7d, secret, \x7b expiresIn: 1h \x7d)`
produces a signed token embedding the user identifier, stamped with its
issuance time `iat` (in seconds). -/
structure Token where
  userId : Nat
  iat : Nat
deriving Repr, DecidableEq

/-- Token issuance, as performed at registration and login
(src/server.js lines 54-56 and 84-86). -/
def issue (userId now : Nat) : Token :=
  { userId := userId, iat := now }

/-- Modelled from the spec: `verify(token) -> userId | fails(InvalidToken)`,
valid for 1 hour (3600 seconds) from issuance and failing once the hour has
elapsed. -/
def verify (t : Token) (now : Nat) : Option Nat :=
  if now < t.iat + 3600 then some t.userId else none

/-- Result of `POST /api/auth/register`. -/
inductive RegisterResult where
  | missingFields
  | conflict
  | created (token : Token) (user : User)
deriving Repr, DecidableEq

/-- HTTP status of a registration result. -/
def RegisterResult.status : RegisterResult → Nat
  | .missingFields => 400
  | .conflict => 400
  | .created _ _ => 201

/-- `POST /api/auth/register` (src/server.js lines 33-63).  Checks the three
body fields for truthiness, then looks the email up; a hit returns 400, a
miss inserts the user with the bcrypt-hashed password (`hash` stands for
`bcrypt.hash` with a fresh salt) and returns a token plus the created row. -/
def register (hash : String → String) (username email password : Option String)
    (now : Nat) (db : DB) : RegisterResult × DB :=
  if truthyStr username = false ∨ truthyStr email = false ∨ truthyStr password = false then
    (.missingFields, db)
  else if (db.users.filter (fun u => u.email = email.getD "")).length > 0 then
    (.conflict, db)
  else
    let uid := nextId (db.users.map User.id)
    let newUser : User :=
      { id := uid, username := username.getD "", email := email.getD ""
        password := hash (password.getD "") }
    (.created (issue uid now) newUser, { db with users := db.users ++ [newUser] })

/-- Result of `POST /api/auth/login`. -/
inductive LoginResult where
  | missingFields
  | invalidCredentials
  | ok (token : Token) (user : User)
deriving Repr, DecidableEq

/-- HTTP status of a login result. -/
def LoginResult.status : LoginResult → Nat
  | .missingFields => 400
  | .invalidCredentials => 400
  | .ok _ _ => 200

/-- `POST /api/auth/login` (src/server.js lines 66-93).  `cmp` stands for
`bcrypt.compare`. -/
def login (cmp : String → String → Bool) (email password : Option String)
    (now : Nat) (db : DB) : LoginResult × DB :=
  (if truthyStr email = false ∨ truthyStr password = false then
    .missingFields
  else
    match db.users.filter (fun u => u.email = email.getD "") with
    | [] => .invalidCredentials
    | u :: _ =>
        if cmp (password.getD "") u.password = false then
          .invalidCredentials
        else
          .ok (issue u.id now) u, db)

/-- The five request-body fields of arcade creation and update. -/
structure ArcadeInput where
  name : String
  address : String
  days_open : String
  hours_of_operation : String
  serves_alcohol : Bool
deriving Repr, DecidableEq

/-- `POST /api/arcades` (src/server.js lines 96-109): inserts the five body
fields as given and returns the created row. -/
def createArcade (inp : ArcadeInput) (db : DB) : Arcade × DB :=
  let aid := nextId (db.arcades.map Arcade.id)
  let a : Arcade :=
    { id := aid, name := inp.name, address := inp.address, days_open := inp.days_open
      hours_of_operation := inp.hours_of_operation, serves_alcohol := inp.serves_alcohol }
  (a, { db with arcades := db.arcades ++ [a] })

/-- Result of `GET /api/arcades/:id`, `PUT /api/arcades/:id` and
`DELETE /api/arcades/:id`. -/
inductive ArcadeResult where
  | notFound
  | ok (arcade : Arcade)
deriving Repr, DecidableEq

/-- HTTP status of an arcade lookup result. -/
def ArcadeResult.status : ArcadeResult → Nat
  | .notFound => 404
  | .ok _ => 200

/-- `GET /api/arcades/:id` (src/server.js lines 129-144). -/
def getArcadeById (id : Nat) (db : DB) : ArcadeResult :=
  match db.arcades.filter (fun a => a.id = id) with
  | [] => .notFound
  | a :: _ => .ok a

/-- The row an arcade update writes: every one of the five columns is
overwritten with the request-body value. -/
def Arcade.overwrite (a : Arcade) (inp : ArcadeInput) : Arcade :=
  { id := a.id, name := inp.name, address := inp.address, days_open := inp.days_open
    hours_of_operation := inp.hours_of_operation, serves_alcohol := inp.serves_alcohol }

/-- `PUT /api/arcades/:id` (src/server.js lines 147-166): a single UPDATE
scoped by id, RETURNING the updated rows; no row means 404. -/
def updateArcade (id : Nat) (inp : ArcadeInput) (db : DB) : ArcadeResult × DB :=
  let db2 : DB :=
    { db with arcades := db.arcades.map (fun a => if a.id = id then a.overwrite inp else a) }
  (match (db.arcades.filter (fun a => a.id = id)).map (fun a => a.overwrite inp) with
   | [] => .notFound
   | a :: _ => .ok a, db2)

/-- `DELETE /api/arcades/:id` (src/server.js lines 169-184): a single DELETE
scoped by id, RETURNING the deleted rows; no row means 404. -/
def deleteArcade (id : Nat) (db : DB) : ArcadeResult × DB :=
  let db2 : DB := { db with arcades := db.arcades.filter (fun a => ¬ a.id = id) }
  (match db.arcades.filter (fun a => a.id = id) with
   | [] => .notFound
   | a :: _ => .ok a, db2)

/-- Result of `POST /api/arcades/:id/comments`: the RETURNING clause yields
id, comment, rating, created_at and the username found by the subquery
`SELECT username FROM users WHERE id = $1`. -/
inductive PostCommentResult where
  | missingFields
  | ok (id : Nat) (comment : Option String) (rating : Option ℚ) (created_at : Nat)
      (username : Option String)
deriving Repr, DecidableEq

/-- HTTP status of a comment creation result. -/
def PostCommentResult.status : PostCommentResult → Nat
  | .missingFields => 400
  | .ok _ _ _ _ _ => 200

/-- `POST /api/arcades/:id/comments` (src/server.js lines 187-210): rejects a
falsy comment or rating with 400 before any query; otherwise inserts the
comment with the authenticated caller as author, stamped `now`, and returns
the created row together with the username of the author. -/
def postComment (callerId arcadeId : Nat) (comment : Option String) (rating : Option ℚ)
    (now : Nat) (db : DB) : PostCommentResult × DB :=
  if truthyStr comment = false ∨ truthyNum rating = false then
    (.missingFields, db)
  else
    let cid := nextId (db.comments.map Comment.id)
    let c : Comment :=
      { id := cid, user_id := callerId, arcade_id := arcadeId
        comment := comment, rating := rating, created_at := now }
    let uname := (db.users.filter (fun u => u.id = callerId)).head?.map User.username
    (.ok cid comment rating now uname, { db with comments := db.comments ++ [c] })

/-- Result of `PUT /api/comments/:commentId` and
`DELETE /api/comments/:commentId`: the 404 deliberately conflates a missing
comment with one owned by someone else. -/
inductive CommentResult where
  | notFoundOrUnauthorized
  | ok (c : Comment)
deriving Repr, DecidableEq

/-- HTTP status of a comment update or delete result. -/
def CommentResult.status : CommentResult → Nat
  | .notFoundOrUnauthorized => 404
  | .ok _ => 200

/-- `PUT /api/comments/:commentId` (src/server.js lines 232-252): a single
UPDATE scoped by both comment id and the authenticated user id, writing the
body values (possibly NULL) into the two columns, RETURNING the updated
rows; no row means 404. -/
def updateComment (callerId commentId : Nat) (comment : Option String) (rating : Option ℚ)
    (db : DB) : CommentResult × DB :=
  let db2 : DB :=
    { db with comments := db.comments.map (fun c =>
        if c.id = commentId ∧ c.user_id = callerId then
          { c with comment := comment, rating := rating }
        else c) }
  (match (db.comments.filter (fun c => c.id = commentId ∧ c.user_id = callerId)).map
      (fun c => { c with comment := comment, rating := rating }) with
   | [] => .notFoundOrUnauthorized
   | c :: _ => .ok c, db2)

/-- `DELETE /api/comments/:commentId` (src/server.js lines 255-274): a single
DELETE scoped by both comment id and the authenticated user id, RETURNING
the deleted rows; no row means 404. -/
def deleteComment (callerId commentId : Nat) (db : DB) : CommentResult × DB :=
  let db2 : DB :=
    { db with comments := db.comments.filter (fun c =>
        ¬ (c.id = commentId ∧ c.user_id = callerId)) }
  (match db.comments.filter (fun c => c.id = commentId ∧ c.user_id = callerId) with
   | [] => .notFoundOrUnauthorized
   | c :: _ => .ok c, db2)

/-- Postgres `ROUND(x, 1)` on numerics: round to one decimal place, halves
away from zero. -/
def pgRound1 (q : ℚ) : ℚ :=
  if 0 ≤ q then (⌊q * 10 + 1 / 2⌋ : ℚ) / 10
  else -((⌊-(q * 10) + 1 / 2⌋ : ℚ) / 10)

/-- The rows of `arcades LEFT JOIN comments ON arcades.id = comments.arcade_id`
belonging to the group of arcade `a`: one row per matching comment, or a
single row padded with NULL when no comment matches. -/
def leftJoinGroup (a : Arcade) (comments : List Comment) : List (Arcade × Option Comment) :=
  match comments.filter (fun c => c.arcade_id = a.id) with
  | [] => [(a, none)]
  | cs => cs.map (fun c => (a, some c))

/-- `COALESCE(ROUND(AVG(comments.rating), 1), 0)` over one GROUP BY group:
AVG skips NULL ratings and is itself NULL on an empty set of values, which
COALESCE turns into 0. -/
def groupAverage (g : List (Arcade × Option Comment)) : ℚ :=
  let vals := g.filterMap (fun p => p.2.bind Comment.rating)
  if vals.length = 0 then 0 else pgRound1 (vals.sum / vals.length)

/-- One output row of `GET /api/arcades`. -/
structure ArcadeWithRating where
  arcade : Arcade
  average_rating : ℚ
deriving Repr, DecidableEq

/-- `GET /api/arcades` (src/server.js lines 112-126): every arcade joined
with the aggregate of its group of LEFT JOIN rows. -/
def getAllArcades (db : DB) : List ArcadeWithRating :=
  db.arcades.map (fun a => ⟨a, groupAverage (leftJoinGroup a db.comments)⟩)

/-- The non-NULL ratings of the comments of arcade `aid`. -/
def ratingsFor (comments : List Comment) (aid : Nat) : List ℚ :=
  (comments.filter (fun c => c.arcade_id = aid)).filterMap Comment.rating

/-- The average rating as the spec words it: the mean of the ratings rounded
to one decimal place, and exactly 0 when there are no ratings. -/
def specAverageRating (ratings : List ℚ) : ℚ :=
  if ratings = [] then 0 else pgRound1 (ratings.sum / ratings.length)

/-- One registered Express route: HTTP method, path pattern, whether the
`authenticateToken` middleware guards it, and the name of its handler. -/
structure Route where
  method : String
  pattern : String
  auth : Bool
  handler : String
deriving Repr, DecidableEq

/-- The routes of src/server.js in registration order.  The static-file
middleware registered just before the catch-all falls through for paths that
name no file under client/build, so it does not appear as a route.  The
`/test-db` handler is registered after the `GET *` catch-all. -/
def routeTable : List Route :=
  [ { method := "GET", pattern := "/health", auth := false, handler := "health" },
    { method := "POST", pattern := "/api/auth/register", auth := false, handler := "register" },
    { method := "POST", pattern := "/api/auth/login", auth := false, handler := "login" },
    { method := "POST", pattern := "/api/arcades", auth := true, handler := "createArcade" },
    { method := "GET", pattern := "/api/arcades", auth := false, handler := "getAllArcades" },
    { method := "GET", pattern := "/api/arcades/:id", auth := false, handler := "getArcadeById" },
    { method := "PUT", pattern := "/api/arcades/:id", auth := true, handler := "updateArcade" },
    { method := "DELETE", pattern := "/api/arcades/:id", auth := true, handler := "deleteArcade" },
    { method := "POST", pattern := "/api/arcades/:id/comments", auth := true, handler := "postComment" },
    { method := "GET", pattern := "/api/profile", auth := true, handler := "getProfile" },
    { method := "PUT", pattern := "/api/comments/:commentId", auth := true, handler := "updateComment" },
    { method := "DELETE", pattern := "/api/comments/:commentId", auth := true, handler := "deleteComment" },
    { method := "GET", pattern := "*", auth := false, handler := "spaFallback" },
    { method := "GET", pattern := "/test-db", auth := false, handler := "testDb" } ]

/-- Split a character list on the slash character. -/
def splitSegs : List Char → List (List Char)
  | [] => [[]]
  | c :: rest =>
      match splitSegs rest with
      | [] => [[]]
      | s :: ss => if c = '/' then [] :: s :: ss else (c :: s) :: ss

/-- One pattern segment against one path segment: a `:param` segment matches
anything, otherwise the segments must be equal. -/
def segMatches (pseg sseg : List Char) : Bool :=
  pseg.head? = some ':' || pseg == sseg

/-- Express path matching for the patterns this server uses: `*` matches
every path, otherwise the slash-separated segments must match one by one. -/
def pathMatches (pattern path : String) : Bool :=
  if pattern = "*" then true
  else
    let ps := splitSegs pattern.toList
    let ss := splitSegs path.toList
    ps.length == ss.length && (List.zip ps ss).all (fun pr => segMatches pr.1 pr.2)

/-- Express dispatch: the first registered route whose method and pattern
match handles the request. -/
def dispatch (routes : List Route) (method path : String) : Option Route :=
  routes.find? (fun r => r.method == method && pathMatches r.pattern path)

/-!  Theorems settling the claims. -/

/-- C7: every token issued at registration or login embeds the user
identifier and verifies successfully for exactly 1 hour from issuance;
once the hour has elapsed, verification fails. -/
theorem token_one_hour_validity (uid t0 now : Nat) :
    (issue uid t0).userId = uid ∧
    (verify (issue uid t0) now = some uid ↔ now < t0 + 3600) ∧
    (t0 + 3600 ≤ now → verify (issue uid t0) now = none) := by
  have hv : verify (issue uid t0) now = if now < t0 + 3600 then some uid else none := rfl
  refine ⟨rfl, ?_, ?_⟩
  · rw [hv]
    split_ifs with h
    · simp [h]
    · simp [h]
  · intro h
    rw [hv, if_neg (by omega)]

theorem token_one_hour_validity_witness :
    (issue 7 100).userId = 7 ∧ verify (issue 7 100) 3699 = some 7 ∧
      verify (issue 7 100) 3700 = none :=
  ⟨(token_one_hour_validity 7 100 3699).1,
   (token_one_hour_validity 7 100 3699).2.1.mpr (by decide),
   (token_one_hour_validity 7 100 3700).2.2 (by decide)⟩

/-- C8: the `authenticateToken` gate guards exactly arcade create, update
and delete, comment create, update and delete, and profile retrieval, while
arcade list and arcade get-by-id are served without any token check. -/
theorem auth_gate_coverage :
    (routeTable.filter Route.auth).map (fun r => (r.method, r.pattern)) =
      [("POST", "/api/arcades"), ("PUT", "/api/arcades/:id"), ("DELETE", "/api/arcades/:id"),
       ("POST", "/api/arcades/:id/comments"), ("GET", "/api/profile"),
       ("PUT", "/api/comments/:commentId"), ("DELETE", "/api/comments/:commentId")] ∧
    routeTable.find? (fun r => r.method == "GET" && r.pattern == "/api/arcades") =
      some { method := "GET", pattern := "/api/arcades", auth := false,
             handler := "getAllArcades" } ∧
    routeTable.find? (fun r => r.method == "GET" && r.pattern == "/api/arcades/:id") =
      some { method := "GET", pattern := "/api/arcades/:id", auth := false,
             handler := "getArcadeById" } := by
  refine ⟨by decide, by decide, by decide⟩

/-- C9: a GET request for `/test-db` is dispatched to the catch-all
`GET *` route registered earlier, which serves the static index.html; the
`/test-db` handler registered after it is never reached. -/
theorem testDb_route_unreachable :
    (dispatch routeTable "GET" "/test-db").map Route.handler = some "spaFallback" ∧
    dispatch routeTable "GET" "/test-db" ≠
      some { method := "GET", pattern := "/test-db", auth := false, handler := "testDb" } ∧
    { method := "GET", pattern := "/test-db", auth := false, handler := "testDb" } ∈
      routeTable := by
  refine ⟨by decide, by decide, by decide⟩

/-- C1: a comment update or delete whose authenticated caller does not own
the comment — even when the comment id exists — returns the combined 404
NotFoundOrUnauthorized error and leaves the comments table unchanged; either
operation can succeed only when some row matches both the comment id and the
caller. -/
theorem comment_mutation_requires_ownership (db : DB) (callerId commentId : Nat)
    (c : Option String) (r : Option ℚ) :
    ((∀ cm ∈ db.comments, cm.id = commentId → cm.user_id ≠ callerId) →
      (updateComment callerId commentId c r db).1 = .notFoundOrUnauthorized ∧
      (updateComment callerId commentId c r db).1.status = 404 ∧
      (updateComment callerId commentId c r db).2 = db ∧
      (deleteComment callerId commentId db).1 = .notFoundOrUnauthorized ∧
      (deleteComment callerId commentId db).1.status = 404 ∧
      (deleteComment callerId commentId db).2 = db) ∧
    ((updateComment callerId commentId c r db).1 ≠ .notFoundOrUnauthorized →
      ∃ cm ∈ db.comments, cm.id = commentId ∧ cm.user_id = callerId) ∧
    ((deleteComment callerId commentId db).1 ≠ .notFoundOrUnauthorized →
      ∃ cm ∈ db.comments, cm.id = commentId ∧ cm.user_id = callerId) := by
  refine ⟨?_, ?_, ?_⟩
  · intro hOwn
    have hfil : db.comments.filter (fun cm => cm.id = commentId ∧ cm.user_id = callerId) = [] := by
      refine List.filter_eq_nil_iff.mpr ?_
      intro a ha
      simp only [decide_eq_true_eq, not_and]
      exact fun h1 => hOwn a ha h1
    have hmap : db.comments.map (fun cm =>
        if cm.id = commentId ∧ cm.user_id = callerId then
          { cm with comment := c, rating := r }
        else cm) = db.comments := by
      have := List.map_congr_left (l := db.comments) (f := fun cm =>
          if cm.id = commentId ∧ cm.user_id = callerId then
            { cm with comment := c, rating := r }
          else cm) (g := fun cm => cm) ?_
      · simpa using this
      · intro a ha
        have : ¬ (a.id = commentId ∧ a.user_id = callerId) := fun h1 => hOwn a ha h1.1 h1.2
        simp [this]
    have hkeep : db.comments.filter (fun cm =>
        ¬ (cm.id = commentId ∧ cm.user_id = callerId)) = db.comments := by
      refine List.filter_eq_self.mpr ?_
      intro a ha
      simp only [decide_not, decide_eq_true_eq, Bool.not_eq_true', decide_eq_false_iff_not,
        not_and]
      exact fun h1 => hOwn a ha h1
    refine ⟨?_, ?_, ?_, ?_, ?_, ?_⟩
    · simp only [updateComment, hfil, List.map_nil]
    · simp only [updateComment, hfil, List.map_nil, CommentResult.status]
    · simp only [updateComment, hfil, List.map_nil, hmap]
    · simp only [deleteComment, hfil]
    · simp only [deleteComment, hfil, CommentResult.status]
    · simp only [deleteComment, hfil, hkeep]
  · intro hne
    by_cases hfil : db.comments.filter
        (fun cm => cm.id = commentId ∧ cm.user_id = callerId) = []
    · exact absurd (by simp only [updateComment, hfil, List.map_nil]) hne
    · obtain ⟨cm, hcm⟩ := List.exists_mem_of_ne_nil _ hfil
      have := List.mem_filter.mp hcm
      exact ⟨cm, this.1, by simpa using this.2⟩
  · intro hne
    by_cases hfil : db.comments.filter
        (fun cm => cm.id = commentId ∧ cm.user_id = callerId) = []
    · exact absurd (by simp only [deleteComment, hfil]) hne
    · obtain ⟨cm, hcm⟩ := List.exists_mem_of_ne_nil _ hfil
      have := List.mem_filter.mp hcm
      exact ⟨cm, this.1, by simpa using this.2⟩

theorem comment_mutation_requires_ownership_witness :
    (updateComment 2 1 (some "x") (some 4)
        { users := [], arcades := [],
          comments := [⟨1, 1, 1, some "g", some 3, 0⟩] }).1 = .notFoundOrUnauthorized ∧
    (updateComment 2 1 (some "x") (some 4)
        { users := [], arcades := [],
          comments := [⟨1, 1, 1, some "g", some 3, 0⟩] }).2 =
      { users := [], arcades := [], comments := [⟨1, 1, 1, some "g", some 3, 0⟩] } ∧
    (deleteComment 2 1
        { users := [], arcades := [],
          comments := [⟨1, 1, 1, some "g", some 3, 0⟩] }).1 = .notFoundOrUnauthorized ∧
    (deleteComment 2 1
        { users := [], arcades := [],
          comments := [⟨1, 1, 1, some "g", some 3, 0⟩] }).2 =
      { users := [], arcades := [], comments := [⟨1, 1, 1, some "g", some 3, 0⟩] } := by
  have h := comment_mutation_requires_ownership
      { users := [], arcades := [], comments := [⟨1, 1, 1, some "g", some 3, 0⟩] }
      2 1 (some "x") (some 4)
  have h1 := h.1 (by decide)
  exact ⟨h1.1, h1.2.2.1, h1.2.2.2.1, h1.2.2.2.2.2⟩

/-- C4: creating an arcade and reading it back by the returned id yields a
record carrying exactly the five field values given at creation. -/
theorem arcade_roundtrip (inp : ArcadeInput) (db : DB) :
    getArcadeById (createArcade inp db).1.id (createArcade inp db).2 =
      .ok (createArcade inp db).1 ∧
    (createArcade inp db).1.name = inp.name ∧
    (createArcade inp db).1.address = inp.address ∧
    (createArcade inp db).1.days_open = inp.days_open ∧
    (createArcade inp db).1.hours_of_operation = inp.hours_of_operation ∧
    (createArcade inp db).1.serves_alcohol = inp.serves_alcohol := by
  have hfil : db.arcades.filter (fun a => a.id = nextId (db.arcades.map Arcade.id)) = [] := by
    refine List.filter_eq_nil_iff.mpr ?_
    intro a ha
    simp only [decide_eq_true_eq]
    intro h
    have hmem : a.id ∈ db.arcades.map Arcade.id := List.mem_map_of_mem _ ha
    have := lt_nextId hmem
    omega
  refine ⟨?_, rfl, rfl, rfl, rfl, rfl⟩
  simp only [createArcade, getArcadeById]
  rw [List.filter_append, hfil]
  simp [List.filter_cons]

/-- C5: comment creation rejects a falsy comment text or rating — including
a rating of exactly 0 — with 400 and performs no insert; with both present
it inserts the comment with the authenticated caller as author and returns
the created comment together with the username of the author. -/
theorem postComment_truthiness (callerId arcadeId : Nat) (c : Option String) (r : Option ℚ)
    (now : Nat) (db : DB) :
    ((truthyStr c = false ∨ truthyNum r = false) →
      postComment callerId arcadeId c r now db = (.missingFields, db) ∧
      (postComment callerId arcadeId c r now db).1.status = 400) ∧
    truthyNum (some 0) = false ∧
    (truthyStr c = true → truthyNum r = true →
      (postComment callerId arcadeId c r now db).2.comments =
        db.comments ++
          [{ id := nextId (db.comments.map Comment.id), user_id := callerId,
             arcade_id := arcadeId, comment := c, rating := r, created_at := now }] ∧
      (postComment callerId arcadeId c r now db).1 =
        .ok (nextId (db.comments.map Comment.id)) c r now
          (((db.users.filter (fun u => u.id = callerId)).head?).map User.username)) := by
  refine ⟨fun h => ?_, by decide, fun h1 h2 => ?_⟩
  · rw [postComment, if_pos h]
    exact ⟨rfl, rfl⟩
  · have hcond : ¬ (truthyStr c = false ∨ truthyNum r = false) := by
      simp [h1, h2]
    rw [postComment, if_neg hcond]
    exact ⟨rfl, rfl⟩

theorem postComment_truthiness_witness :
    postComment 1 1 (some "fun") (some 0) 5
        { users := [⟨1, "al", "a@b.c", "hh"⟩], arcades := [], comments := [] } =
      (.missingFields,
        { users := [⟨1, "al", "a@b.c", "hh"⟩], arcades := [], comments := [] }) ∧
    (postComment 1 1 (some "fun") (some 4) 5
        { users := [⟨1, "al", "a@b.c", "hh"⟩], arcades := [], comments := [] }).2.comments =
      [⟨1, 1, 1, some "fun", some 4, 5⟩] ∧
    (postComment 1 1 (some "fun") (some 4) 5
        { users := [⟨1, "al", "a@b.c", "hh"⟩], arcades := [], comments := [] }).1 =
      .ok 1 (some "fun") (some 4) 5 (some "al") := by
  refine ⟨((postComment_truthiness 1 1 (some "fun") (some 0) 5 _).1
      (Or.inr (by decide))).1, ?_, ?_⟩
  · have h := (postComment_truthiness 1 1 (some "fun") (some 4) 5
        { users := [⟨1, "al", "a@b.c", "hh"⟩], arcades := [], comments := [] }).2.2
        (by decide) (by decide)
    simpa [nextId] using h.1
  · have h := (postComment_truthiness 1 1 (some "fun") (some 4) 5
        { users := [⟨1, "al", "a@b.c", "hh"⟩], arcades := [], comments := [] }).2.2
        (by decide) (by decide)
    simpa [nextId, List.filter] using h.2

/-- C6: a registration, login or comment-creation request with a missing
(falsy) required field is answered with 400 and the database is left
unchanged: the validation check precedes every query in each of the three
handlers. -/
theorem validation_precedes_writes (hash : String → String) (cmp : String → String → Bool)
    (username email password : Option String) (callerId arcadeId : Nat)
    (c : Option String) (r : Option ℚ) (now : Nat) (db : DB) :
    ((truthyStr username = false ∨ truthyStr email = false ∨ truthyStr password = false) →
      register hash username email password now db = (.missingFields, db) ∧
      (register hash username email password now db).1.status = 400) ∧
    ((truthyStr email = false ∨ truthyStr password = false) →
      login cmp email password now db = (.missingFields, db) ∧
      (login cmp email password now db).1.status = 400) ∧
    ((truthyStr c = false ∨ truthyNum r = false) →
      postComment callerId arcadeId c r now db = (.missingFields, db) ∧
      (postComment callerId arcadeId c r now db).1.status = 400) := by
  refine ⟨fun h => ?_, fun h => ?_, fun h => ?_⟩
  · rw [register, if_pos h]
    exact ⟨rfl, rfl⟩
  · rw [login, if_pos h]
    exact ⟨rfl, rfl⟩
  · rw [postComment, if_pos h]
    exact ⟨rfl, rfl⟩

theorem validation_precedes_writes_witness :
    register (fun s => s) none (some "a@b.c") (some "pw") 0
        { users := [], arcades := [], comments := [] } =
      (.missingFields, { users := [], arcades := [], comments := [] }) ∧
    login (fun _ _ => true) (some "a@b.c") none 0
        { users := [], arcades := [], comments := [] } =
      (.missingFields, { users := [], arcades := [], comments := [] }) ∧
    postComment 1 1 (some "fun") none 0
        { users := [], arcades := [], comments := [] } =
      (.missingFields, { users := [], arcades := [], comments := [] }) := by
  have h := validation_precedes_writes (fun s => s) (fun _ _ => true)
      none (some "a@b.c") (some "pw") 1 1 (some "fun") none 0
      { users := [], arcades := [], comments := [] }
  refine ⟨(h.1 (Or.inl (by decide))).1, ?_, (h.2.2 (Or.inr (by decide))).1⟩
  have h2 := validation_precedes_writes (fun s => s) (fun _ _ => true)
      none (some "a@b.c") none 1 1 (some "fun") none 0
      { users := [], arcades := [], comments := [] }
  exact (h2.2.1 (Or.inr (by decide))).1

/-- C10: comment update performs no presence validation of its body: a
request by the owning caller in which the comment text or the rating is
absent from the body is not rejected with 400 but updates the matching row,
writing the body values into the two columns — NULL for each missing
column — while comment creation rejects the same body. -/
theorem updateComment_no_validation (db : DB) (callerId commentId arcadeId now : Nat)
    (c : Option String) (r : Option ℚ) (hmiss : c = none ∨ r = none)
    (h : ∃ cm ∈ db.comments, cm.id = commentId ∧ cm.user_id = callerId) :
    (∃ cm, (updateComment callerId commentId c r db).1 = .ok cm ∧
      cm.comment = c ∧ cm.rating = r) ∧
    (updateComment callerId commentId c r db).1.status = 200 ∧
    (updateComment callerId commentId c r db).1.status ≠ 400 ∧
    (∀ cm ∈ (updateComment callerId commentId c r db).2.comments,
      cm.id = commentId → cm.user_id = callerId → cm.comment = c ∧ cm.rating = r) ∧
    postComment callerId arcadeId c r now db = (.missingFields, db) := by
  obtain ⟨cm0, hmem, hcm0⟩ := h
  have hmemf : cm0 ∈ db.comments.filter
      (fun cm => cm.id = commentId ∧ cm.user_id = callerId) :=
    List.mem_filter.mpr ⟨hmem, by simpa using hcm0⟩
  have hok : ∃ x xs, db.comments.filter
      (fun cm => cm.id = commentId ∧ cm.user_id = callerId) = x :: xs := by
    cases hfil : db.comments.filter
        (fun cm => cm.id = commentId ∧ cm.user_id = callerId) with
    | nil => rw [hfil] at hmemf; cases hmemf
    | cons x xs => exact ⟨x, xs, rfl⟩
  obtain ⟨x, xs, hfil⟩ := hok
  refine ⟨?_, ?_, ?_, ?_, ?_⟩
  · exact ⟨{ x with comment := c, rating := r },
      by simp only [updateComment, hfil, List.map_cons], rfl, rfl⟩
  · simp only [updateComment, hfil, List.map_cons, CommentResult.status]
  · simp only [updateComment, hfil, List.map_cons, CommentResult.status]
    decide
  · intro cm hcm h1 h2
    simp only [updateComment] at hcm
    obtain ⟨orig, horig, heq⟩ := List.mem_map.mp hcm
    by_cases hpred : orig.id = commentId ∧ orig.user_id = callerId
    · rw [if_pos hpred] at heq
      rw [← heq]
      exact ⟨rfl, rfl⟩
    · rw [if_neg hpred] at heq
      rw [← heq] at h1 h2
      exact absurd ⟨h1, h2⟩ hpred
  · have hc : truthyStr c = false ∨ truthyNum r = false := by
      rcases hmiss with h1 | h1
      · exact Or.inl (by rw [h1]; rfl)
      · exact Or.inr (by rw [h1]; rfl)
    rw [postComment, if_pos hc]

theorem updateComment_no_validation_witness :
    (∃ cm, (updateComment 1 1 (some "upd") none
        { users := [], arcades := [],
          comments := [⟨1, 1, 1, some "g", some 3, 0⟩] }).1 = .ok cm ∧
      cm.comment = some "upd" ∧ cm.rating = none) ∧
    (updateComment 1 1 (some "upd") none
        { users := [], arcades := [],
          comments := [⟨1, 1, 1, some "g", some 3, 0⟩] }).1.status = 200 ∧
    postComment 1 1 (some "upd") none 9
        { users := [], arcades := [], comments := [⟨1, 1, 1, some "g", some 3, 0⟩] } =
      (.missingFields,
        { users := [], arcades := [], comments := [⟨1, 1, 1, some "g", some 3, 0⟩] }) ∧
    (∃ cm, (updateComment 1 1 none (some 4)
        { users := [], arcades := [],
          comments := [⟨1, 1, 1, some "g", some 3, 0⟩] }).1 = .ok cm ∧
      cm.comment = none ∧ cm.rating = some 4) ∧
    postComment 1 1 none (some 4) 9
        { users := [], arcades := [], comments := [⟨1, 1, 1, some "g", some 3, 0⟩] } =
      (.missingFields,
        { users := [], arcades := [], comments := [⟨1, 1, 1, some "g", some 3, 0⟩] }) := by
  have h1 := updateComment_no_validation
      { users := [], arcades := [], comments := [⟨1, 1, 1, some "g", some 3, 0⟩] }
      1 1 1 9 (some "upd") none (Or.inr rfl)
      ⟨⟨1, 1, 1, some "g", some 3, 0⟩, by decide, by decide, by decide⟩
  have h2 := updateComment_no_validation
      { users := [], arcades := [], comments := [⟨1, 1, 1, some "g", some 3, 0⟩] }
      1 1 1 9 none (some 4) (Or.inl rfl)
      ⟨⟨1, 1, 1, some "g", some 3, 0⟩, by decide, by decide, by decide⟩
  exact ⟨h1.1, h1.2.1, h1.2.2.2.2, h2.1, h2.2.2.2.2⟩

/-- C2 counterexample: a registration request whose email already exists in
the users table but whose username is missing is answered as missing
fields, not with the Conflict error. -/
theorem register_conflict_counterexample :
    (register (fun s => s) none (some "a@b.c") (some "pw") 0
        { users := [⟨1, "bob", "a@b.c", "hh"⟩], arcades := [], comments := [] }).1 =
      .missingFields ∧
    (register (fun s => s) none (some "a@b.c") (some "pw") 0
        { users := [⟨1, "bob", "a@b.c", "hh"⟩], arcades := [], comments := [] }).1 ≠
      .conflict ∧
    (∃ u ∈ ([⟨1, "bob", "a@b.c", "hh"⟩] : List User), u.email = "a@b.c") := by
  refine ⟨by decide, by decide, by decide⟩

/-- C2 (amended): for a registration request with all three fields present
(truthy) whose email already exists, Register returns the Conflict error
(400) and inserts no row; the email-uniqueness invariant of the users table
is preserved by register and the users table is untouched by every other
operation; when the email is absent, Register persists the user with the
salted hash of the password and returns a token plus the created record. -/
theorem register_conflict_and_uniqueness (hash : String → String)
    (u e p : String) (hu : u ≠ "") (he : e ≠ "") (hp : p ≠ "")
    (cmp : String → String → Bool) (email2 password2 : Option String)
    (callerId commentId arcadeId aid : Nat) (c : Option String) (r : Option ℚ)
    (inp : ArcadeInput) (now : Nat) (db : DB) :
    ((∃ usr ∈ db.users, usr.email = e) →
      (register hash (some u) (some e) (some p) now db).1 = .conflict ∧
      (register hash (some u) (some e) (some p) now db).1.status = 400 ∧
      (register hash (some u) (some e) (some p) now db).2 = db) ∧
    ((db.users.map User.email).Nodup →
      ((register hash (some u) (some e) (some p) now db).2.users.map User.email).Nodup) ∧
    ((¬ ∃ usr ∈ db.users, usr.email = e) →
      (register hash (some u) (some e) (some p) now db).2.users =
        db.users ++ [⟨nextId (db.users.map User.id), u, e, hash p⟩] ∧
      (register hash (some u) (some e) (some p) now db).1 =
        .created (issue (nextId (db.users.map User.id)) now)
          ⟨nextId (db.users.map User.id), u, e, hash p⟩) ∧
    (login cmp email2 password2 now db).2.users = db.users ∧
    (createArcade inp db).2.users = db.users ∧
    (updateArcade aid inp db).2.users = db.users ∧
    (deleteArcade aid db).2.users = db.users ∧
    (postComment callerId arcadeId c r now db).2.users = db.users ∧
    (updateComment callerId commentId c r db).2.users = db.users ∧
    (deleteComment callerId commentId db).2.users = db.users := by
  have hval : ¬ (truthyStr (some u) = false ∨ truthyStr (some e) = false ∨
      truthyStr (some p) = false) := by
    simp [truthyStr, hu, he, hp]
  refine ⟨?_, ?_, ?_, rfl, rfl, rfl, rfl, ?_, rfl, rfl⟩
  · rintro ⟨usr, husr, heq⟩
    have hmemf : usr ∈ db.users.filter (fun x => x.email = (some e).getD "") :=
      List.mem_filter.mpr ⟨husr, by simpa using heq⟩
    have hlen : (db.users.filter (fun x => x.email = (some e).getD "")).length > 0 :=
      List.length_pos.mpr (List.ne_nil_of_mem hmemf)
    rw [register, if_neg hval, if_pos hlen]
    exact ⟨rfl, rfl, rfl⟩
  · intro hnd
    by_cases hlen : (db.users.filter (fun x => x.email = (some e).getD "")).length > 0
    · rw [register, if_neg hval, if_pos hlen]
      exact hnd
    · have hfilnil : db.users.filter (fun x => x.email = (some e).getD "") = [] := by
        rcases Nat.eq_zero_or_pos (db.users.filter
            (fun x => x.email = (some e).getD "")).length with h0 | h0
        · exact List.length_eq_zero.mp h0
        · exact absurd h0 hlen
      have hnot : ∀ x ∈ db.users, ¬ x.email = e := by
        intro x hx
        have := List.filter_eq_nil_iff.mp hfilnil x hx
        simpa using this
      rw [register, if_neg hval, if_neg hlen]
      simp only [List.map_append, List.map_cons, List.map_nil, List.nodup_append,
        List.disjoint_singleton]
      refine ⟨hnd, List.nodup_singleton _, ?_⟩
      intro hmem
      obtain ⟨x, hx, hxe⟩ := List.mem_map.mp hmem
      exact hnot x hx hxe
  · intro hne
    have hfilnil : db.users.filter (fun x => x.email = (some e).getD "") = [] := by
      refine List.filter_eq_nil_iff.mpr ?_
      intro x hx
      simp only [decide_eq_true_eq, Option.getD_some]
      exact fun hxe => hne ⟨x, hx, hxe⟩
    have hlen : ¬ (db.users.filter (fun x => x.email = (some e).getD "")).length > 0 := by
      rw [hfilnil]
      simp
    rw [register, if_neg hval, if_neg hlen]
    exact ⟨rfl, rfl⟩
  · by_cases hc : truthyStr c = false ∨ truthyNum r = false
    · rw [postComment, if_pos hc]
    · rw [postComment, if_neg hc]

theorem register_conflict_and_uniqueness_witness :
    ("alice" : String) ≠ "" ∧
    (register (fun s => s) (some "alice") (some "a@b.c") (some "pw") 0
        { users := [⟨1, "bob", "a@b.c", "hh"⟩], arcades := [], comments := [] }).1 =
      .conflict ∧
    (register (fun s => s) (some "alice") (some "a@b.c") (some "pw") 0
        { users := [⟨1, "bob", "a@b.c", "hh"⟩], arcades := [], comments := [] }).2 =
      { users := [⟨1, "bob", "a@b.c", "hh"⟩], arcades := [], comments := [] } ∧
    (register (fun s => s) (some "alice") (some "new@b.c") (some "pw") 0
        { users := [⟨1, "bob", "a@b.c", "hh"⟩], arcades := [], comments := [] }).2.users =
      [⟨1, "bob", "a@b.c", "hh"⟩, ⟨2, "alice", "new@b.c", "pw"⟩] := by
  have h1 := register_conflict_and_uniqueness (fun s => s) "alice" "a@b.c" "pw"
      (by decide) (by decide) (by decide) (fun _ _ => true) none none 1 1 1 1 none none
      ⟨"n", "a", "d", "h", false⟩ 0
      { users := [⟨1, "bob", "a@b.c", "hh"⟩], arcades := [], comments := [] }
  have hc := h1.1 ⟨⟨1, "bob", "a@b.c", "hh"⟩, by decide, by decide⟩
  have h2 := register_conflict_and_uniqueness (fun s => s) "alice" "new@b.c" "pw"
      (by decide) (by decide) (by decide) (fun _ _ => true) none none 1 1 1 1 none none
      ⟨"n", "a", "d", "h", false⟩ 0
      { users := [⟨1, "bob", "a@b.c", "hh"⟩], arcades := [], comments := [] }
  have hs := h2.2.2.1 (by decide)
  refine ⟨by decide, hc.1, hc.2.2, ?_⟩
  rw [hs.1]
  rfl

/-- The aggregate computed over the LEFT JOIN group of an arcade coincides
with the spec reading: the mean of the ratings of its comments rounded to
one decimal place, defaulting to 0. -/
theorem groupAverage_eq_spec (a : Arcade) (comments : List Comment) :
    groupAverage (leftJoinGroup a comments) =
      specAverageRating (ratingsFor comments a.id) := by
  unfold leftJoinGroup ratingsFor
  cases hfil : comments.filter (fun c => c.arcade_id = a.id) with
  | nil =>
      simp [groupAverage, specAverageRating]
  | cons x xs =>
      simp only [groupAverage, specAverageRating, List.filterMap_map]
      have hcomp : ((fun p : Arcade × Option Comment => p.2.bind Comment.rating) ∘
          (fun c => (a, some c))) = Comment.rating := funext fun c => rfl
      rw [hcomp]
      simp only [List.length_eq_zero]

/-- C3: every arcade appears in the Arcade List response paired with an
average_rating equal to the mean of the (non-NULL) ratings of its comments
rounded to one decimal place, and equal to exactly 0 when it has no
comments. -/
theorem arcadeList_average_rating (db : DB) (a : Arcade) (ha : a ∈ db.arcades) :
    (⟨a, specAverageRating (ratingsFor db.comments a.id)⟩ : ArcadeWithRating) ∈
      getAllArcades db ∧
    (db.comments.filter (fun c => c.arcade_id = a.id) = [] →
      (⟨a, 0⟩ : ArcadeWithRating) ∈ getAllArcades db) := by
  have hmem : (⟨a, groupAverage (leftJoinGroup a db.comments)⟩ : ArcadeWithRating) ∈
      getAllArcades db := List.mem_map_of_mem _ ha
  constructor
  · rwa [groupAverage_eq_spec] at hmem
  · intro hnil
    have h0 : groupAverage (leftJoinGroup a db.comments) = 0 := by
      rw [groupAverage_eq_spec]
      unfold ratingsFor
      rw [hnil]
      simp [specAverageRating]
    rwa [h0] at hmem

theorem arcadeList_average_rating_witness :
    specAverageRating (ratingsFor
      [⟨1, 1, 1, some "g", some 3, 0⟩, ⟨2, 1, 1, some "g", some 5, 0⟩] 1) = 4 ∧
    (⟨⟨1, "X", "ad", "d", "h", false⟩, 4⟩ : ArcadeWithRating) ∈
      getAllArcades
        { users := [],
          arcades := [⟨1, "X", "ad", "d", "h", false⟩, ⟨2, "Y", "ad", "d", "h", false⟩],
          comments := [⟨1, 1, 1, some "g", some 3, 0⟩, ⟨2, 1, 1, some "g", some 5, 0⟩] } ∧
    (⟨⟨2, "Y", "ad", "d", "h", false⟩, 0⟩ : ArcadeWithRating) ∈
      getAllArcades
        { users := [],
          arcades := [⟨1, "X", "ad", "d", "h", false⟩, ⟨2, "Y", "ad", "d", "h", false⟩],
          comments := [⟨1, 1, 1, some "g", some 3, 0⟩, ⟨2, 1, 1, some "g", some 5, 0⟩] } := by
  have hmean : specAverageRating (ratingsFor
      [⟨1, 1, 1, some "g", some 3, 0⟩, ⟨2, 1, 1, some "g", some 5, 0⟩] 1) = 4 := by
    simp [specAverageRating, ratingsFor, List.filter]
    norm_num [pgRound1]
  have h1 := (arcadeList_average_rating
      { users := [],
        arcades := [⟨1, "X", "ad", "d", "h", false⟩, ⟨2, "Y", "ad", "d", "h", false⟩],
        comments := [⟨1, 1, 1, some "g", some 3, 0⟩, ⟨2, 1, 1, some "g", some 5, 0⟩] }
      ⟨1, "X", "ad", "d", "h", false⟩ (by decide)).1
  have h2 := (arcadeList_average_rating
      { users := [],
        arcades := [⟨1, "X", "ad", "d", "h", false⟩, ⟨2, "Y", "ad", "d", "h", false⟩],
        comments := [⟨1, 1, 1, some "g", some 3, 0⟩, ⟨2, 1, 1, some "g", some 5, 0⟩] }
      ⟨2, "Y", "ad", "d", "h", false⟩ (by decide)).2 (by decide)
  refine ⟨hmean, ?_, h2⟩
  have h1b : (⟨⟨1, "X", "ad", "d", "h", false⟩, specAverageRating (ratingsFor
      [⟨1, 1, 1, some "g", some 3, 0⟩, ⟨2, 1, 1, some "g", some 5, 0⟩] 1)⟩ :
        ArcadeWithRating) ∈
      getAllArcades
        { users := [],
          arcades := [⟨1, "X", "ad", "d", "h", false⟩, ⟨2, "Y", "ad", "d", "h", false⟩],
          comments := [⟨1, 1, 1, some "g", some 3, 0⟩, ⟨2, 1, 1, some "g", some 5, 0⟩] } := h1
  rwa [hmean] at h1b

end ArcadeServer

